import Mathlib

/-!
Shallow embedding of the mow-demo multiplayer game core.

Backend entities come from `src/backend/src/entities/Player.ts`; the client
reconciler comes from `src/frontend/src/scenes/MainScene.ts`, the client player
presentation from `src/frontend/src/entities/Player.ts`, and the client enemy
presentation from the unnamed frontend Enemy module.  JavaScript numbers are
modelled as rationals; JavaScript objects used as string-keyed maps are
modelled as association lists in insertion order.
-/

namespace MowDemo

/-- A 2D position, as the `{ x, y }` records used throughout the sources. -/
structure Position where
  x : ℚ
  y : ℚ
deriving DecidableEq

/-- The backend input record: `Partial<{left,right,up,down,direction,action}>`.
Absent boolean flags behave exactly like `false` under JavaScript truthiness,
so they are modelled as `Bool` with default `false`; the optional string
fields are modelled as `Option String` (with `none` for an absent field). -/
structure InputRecord where
  left : Bool := false
  right : Bool := false
  up : Bool := false
  down : Bool := false
  direction : Option String := none
  action : Option String := none
deriving DecidableEq

namespace Backend

/-- Server-side `Player` from `src/backend/src/entities/Player.ts`. -/
structure Player where
  playerId : String
  position : Position
  level : ℚ
  exp : ℚ
  health : ℚ
  socketId : String
  direction : String
  action : String
  isAlive : Bool := true
  speed : ℚ := 100
  currentInput : InputRecord := {}
deriving DecidableEq

/-- `Player.setInput`: store the latest input, but if the previous pending
record's action was `"attack"`, keep `"attack"` as the stored action. -/
def Player.setInput (p : Player) (input : InputRecord) : Player :=
  let prev := p.currentInput
  if prev.action = some "attack" then
    { p with currentInput := { input with action := some "attack" } }
  else
    { p with currentInput := input }

/-- `Player.isAttacking`: the pending record's action is `"attack"`. -/
def Player.isAttacking (p : Player) : Bool :=
  p.currentInput.action = some "attack"

/-- `Player.processInput`, parametrised by the server's `TICK_RATE` constant
(imported by the source from `../server`): integrate the pressed directional
flags, take over a truthy direction/action, clamp the position into
[0,800]×[0,600], and reset the stored input to the empty record. -/
def Player.processInput (tickRate : ℚ) (p : Player) : Player :=
  let input := p.currentInput
  let x0 := if input.left then p.position.x - p.speed / tickRate else p.position.x
  let x1 := if input.right then x0 + p.speed / tickRate else x0
  let y0 := if input.up then p.position.y - p.speed / tickRate else p.position.y
  let y1 := if input.down then y0 + p.speed / tickRate else y0
  let direction :=
    match input.direction with
    | some s => if s ≠ "" then s else p.direction
    | none => p.direction
  let action :=
    match input.action with
    | some s => if s ≠ "" then s else p.action
    | none => p.action
  { p with
    position := { x := max 0 (min 800 x1), y := max 0 (min 600 y1) }
    direction := direction
    action := action
    currentInput := {} }

/-- `Player.gainExp`: add the amount, and (at most once — the source uses a
single `if`, not a loop) when the new total reaches `level * 100`, subtract
that threshold and increment the level; return whether a level-up happened. -/
def Player.gainExp (p : Player) (amount : ℚ) : Player × Bool :=
  let p1 := { p with exp := p.exp + amount }
  if p1.exp ≥ p1.level * 100 then
    ({ p1 with exp := p1.exp - p1.level * 100, level := p1.level + 1 }, true)
  else
    (p1, false)

end Backend

namespace Frontend

/-- The snapshot entry for a player, as received by the client
(`PlayerData` in `src/frontend/src/scenes/MainScene.ts`). -/
structure PlayerData where
  playerId : String
  position : Position
  level : ℚ
  exp : ℚ
  direction : String
  action : String
deriving DecidableEq

/-- The snapshot entry for an enemy (`EnemyData` in `MainScene.ts`). -/
structure EnemyData where
  position : Position
  health : ℚ
deriving DecidableEq

/-- Client-side `Player` from `src/frontend/src/entities/Player.ts`:
the sprite/label coordinates are the displayed position, `anim` is the
animation key last handed to `sprite.play`, and `attackCallback` records a
pending `once("animationcomplete", ...)` handler registered by an attack. -/
structure Player where
  playerId : String
  spriteX : ℚ
  spriteY : ℚ
  labelX : ℚ
  labelY : ℚ
  flipX : Bool
  anim : String
  exp : ℚ
  level : ℚ
  expBarWidth : ℚ
  expBarX : ℚ
  isMoving : Bool
  isAttacking : Bool
  attackCallback : Bool
  currentDirection : String
  currentAction : String
deriving DecidableEq

/-- `Player.updatePosition`: assign the sprite (and label) coordinates
directly from the given position. -/
def Player.updatePosition (p : Player) (pos : Position) : Player :=
  { p with spriteX := pos.x, spriteY := pos.y, labelX := pos.x, labelY := pos.y - 50 }

/-- `Player.updateExpBar`: store exp/level and resize/reposition the bar. -/
def Player.updateExpBar (p : Player) (exp level : ℚ) : Player :=
  let expPercentage := exp / (level * 100) * 200
  { p with
    exp := exp
    level := level
    expBarWidth := expPercentage
    expBarX := 400 - (200 - expPercentage) / 2 }

/-- `Player.updateDirection`: on a truthy direction, flip the sprite when the
direction changed to/from `"left"` and record the new facing direction. -/
def Player.updateDirection (p : Player) (direction : String) : Player :=
  if direction ≠ "" then
    let p1 :=
      if direction ≠ p.currentDirection then
        if direction = "left" then { p with flipX := true } else { p with flipX := false }
      else p
    { p1 with currentDirection := direction }
  else p

/-- `Player.updateAction`: record the authoritative action tag. -/
def Player.updateAction (p : Player) (action : String) : Player :=
  { p with currentAction := action }

/-- `Player.playAnimation` with an explicit direction argument: ignored
entirely while an attack animation is playing; otherwise select the animation
key from the action, update the movement/attack flags, play the key when
non-empty, and for an attack register the `animationcomplete` handler. -/
def Player.playAnimationWith (p : Player) (action direction : String) : Player :=
  if p.isAttacking then p
  else
    let animationKey :=
      if action = "idle" then "idle_" ++ direction
      else if action = "walk" then "walk_" ++ direction
      else if action = "attack" then "attack_" ++ direction
      else if action = "die" then "die"
      else ""
    let p1 :=
      if action = "idle" then { p with isMoving := false }
      else if action = "walk" then { p with isMoving := true }
      else if action = "attack" then { p with isAttacking := true }
      else p
    let p2 := if animationKey ≠ "" then { p1 with anim := animationKey } else p1
    if action = "attack" then { p2 with attackCallback := true } else p2

/-- `Player.playAnimation` with the direction argument defaulted to the
currently tracked facing direction, as at the `updateGameState` call site. -/
def Player.playAnimation (p : Player) (action : String) : Player :=
  p.playAnimationWith action p.currentDirection

/-- Firing of the sprite's `animationcomplete` event: when the one-shot
handler registered by an attack is pending, it clears `isAttacking` and
replays walk or idle from the locally tracked movement state. -/
def Player.animationComplete (p : Player) : Player :=
  if p.attackCallback then
    let p1 := { p with attackCallback := false, isAttacking := false }
    p1.playAnimationWith (if p1.isMoving then "walk" else "idle") p1.currentDirection
  else p

/-- The client `Player` constructor: sprite at the snapshot position playing
`idle_right`, label 50 above, exp bar initialised then set via
`updateExpBar(exp, level)`. -/
def Player.create (data : PlayerData) : Player :=
  let p : Player :=
    { playerId := data.playerId
      spriteX := data.position.x
      spriteY := data.position.y
      labelX := data.position.x
      labelY := data.position.y - 50
      flipX := false
      anim := "idle_right"
      exp := data.exp
      level := data.level
      expBarWidth := 200
      expBarX := 400
      isMoving := false
      isAttacking := false
      attackCallback := false
      currentDirection := "right"
      currentAction := "idle" }
  p.updateExpBar data.exp data.level

/-- The enemy record kept per id by `MainScene` (sprite, health bar,
`maxHealth`, `prevPosition`, `targetPosition`). -/
structure EnemyObj where
  spriteX : ℚ
  spriteY : ℚ
  healthBarX : ℚ
  healthBarY : ℚ
  healthBarWidth : ℚ
  healthBarColor : ℕ
  maxWidth : ℚ
  maxHealth : ℚ
  prevPosition : Position
  targetPosition : Position
deriving DecidableEq

/-- `MainScene.createEnemy`: triangle sprite at the snapshot position, a
40×5 green health bar 30 above it, prev/target positions initialised to the
snapshot position. -/
def createEnemy (ed : EnemyData) : EnemyObj :=
  { spriteX := ed.position.x
    spriteY := ed.position.y
    healthBarX := ed.position.x
    healthBarY := ed.position.y - 30
    healthBarWidth := 40
    healthBarColor := 0x00ff00
    maxWidth := 40
    maxHealth := ed.health
    prevPosition := ed.position
    targetPosition := ed.position }

end Frontend

/-- Read of a JavaScript string-keyed object, `obj[k]`: first (only) entry
with the given key, if any. -/
def getVal {α : Type} : List (String × α) → String → Option α
  | [], _ => none
  | e :: rest, k => if e.1 = k then some e.2 else getVal rest k

/-- JavaScript truthiness of `obj[k]` for object-valued entries: the key is
present. -/
def hasKey {α : Type} (l : List (String × α)) (k : String) : Bool :=
  (getVal l k).isSome

/-- In-place mutation of the object stored under a key (`obj[k].method(...)`):
apply `g` to the value of every entry carrying that key. -/
def updateValue {α : Type} (l : List (String × α)) (k : String) (g : α → α) :
    List (String × α) :=
  l.map fun e => if e.1 = k then (e.1, g e.2) else e

/-- One iteration of a `for (const id in snapshot)` reconciliation loop:
update the stored value when the id is already tracked, otherwise append a
freshly constructed entry (JavaScript object insertion order). -/
def syncEntry {α δ : Type} (upd : String → δ → α → α) (create : δ → α)
    (cur : List (String × α)) (e : String × δ) : List (String × α) :=
  if hasKey cur e.1 then updateValue cur e.1 (upd e.1 e.2)
  else cur ++ [(e.1, create e.2)]

/-- The whole reconciliation loop over the snapshot's entries. -/
def syncAll {α δ : Type} (upd : String → δ → α → α) (create : δ → α)
    (snapshot : List (String × δ)) (cur : List (String × α)) :
    List (String × α) :=
  snapshot.foldl (syncEntry upd create) cur

/-- The `for (const id in tracked) if (!snapshot[id]) delete` pruning pass:
keep exactly the tracked entries whose id is still in the snapshot (the
dropped entries have their presentation resources destroyed). -/
def prune {α δ : Type} (snapshot : List (String × δ)) (cur : List (String × α)) :
    List (String × α) :=
  cur.filter fun e => hasKey snapshot e.1

namespace Frontend

/-- The known-player branch of `MainScene.updateGameState`: direct position
assignment, direction/action take-over, `playAnimation(action)`, and — for
the local player only — the exp bar update. -/
def updateServerPlayer (myId id : String) (sp : PlayerData) (pl : Player) : Player :=
  let pl := pl.updatePosition sp.position
  let pl := pl.updateDirection sp.direction
  let pl := pl.updateAction sp.action
  let pl := pl.playAnimation sp.action
  if id = myId then pl.updateExpBar sp.exp sp.level else pl

/-- The known-enemy branch of `MainScene.updateGameState`: store the
authoritative position as `targetPosition` only, and refresh the health bar's
width and colour; the sprite's displayed position is untouched. -/
def updateServerEnemy (ed : EnemyData) (en : EnemyObj) : EnemyObj :=
  let en1 := { en with targetPosition := ed.position }
  let healthPercentage := ed.health / en1.maxHealth
  let en2 := { en1 with healthBarWidth := healthPercentage * en1.maxWidth }
  { en2 with
    healthBarColor :=
      if healthPercentage > 1/2 then 0x00ff00
      else if healthPercentage > 1/5 then 0xffff00
      else 0xff0000 }

/-- The `gameState` payload: the authoritative snapshot maps. -/
structure GameStateMsg where
  players : List (String × PlayerData)
  enemies : List (String × EnemyData)

/-- The client scene state relevant to reconciliation: the local player id
and the tracked player and enemy maps. -/
structure MainScene where
  playerId : String
  players : List (String × Player)
  enemies : List (String × EnemyObj)

/-- `MainScene.updateGameState`: reconcile both maps against the snapshot —
update or create every snapshot id, then destroy and delete every tracked id
missing from the snapshot, players and enemies alike. -/
def MainScene.updateGameState (scene : MainScene) (st : GameStateMsg) : MainScene :=
  let players1 := syncAll (updateServerPlayer scene.playerId) Player.create st.players scene.players
  let players2 := prune st.players players1
  let enemies1 := syncAll (fun _ => updateServerEnemy) createEnemy st.enemies scene.enemies
  let enemies2 := prune st.enemies enemies1
  { scene with players := players2, enemies := enemies2 }

/-- `Phaser.Math.Linear(p0, p1, t) = (p1 - p0) * t + p0`. -/
def phaserLinear (p0 p1 t : ℚ) : ℚ := (p1 - p0) * t + p0

/-- One render frame of enemy interpolation for a single enemy
(`MainScene.interpolateEnemyPositions` body, identical to the unnamed
module's `Enemy.interpolate`): move the sprite 10% of the remaining distance
toward `targetPosition` on each axis and reattach the health bar. -/
def interpolateEnemy (en : EnemyObj) : EnemyObj :=
  let t : ℚ := 1/10
  let x := phaserLinear en.spriteX en.targetPosition.x t
  let y := phaserLinear en.spriteY en.targetPosition.y t
  { en with spriteX := x, spriteY := y, healthBarX := x, healthBarY := y - 30 }

/-- `MainScene.interpolateEnemyPositions`: apply the per-frame interpolation
step to every tracked enemy. -/
def MainScene.interpolateEnemyPositions (scene : MainScene) : MainScene :=
  { scene with enemies := scene.enemies.map fun e => (e.1, interpolateEnemy e.2) }

/-- The one-axis interpolation recurrence applied once per render frame with
factor 0.1 toward a fixed target. -/
def interpStep (target x : ℚ) : ℚ := phaserLinear x target (1/10)

/-- The displayed coordinate after `n` render frames of interpolation toward
a fixed target, starting from `x`. -/
def interpIter (target x : ℚ) : ℕ → ℚ
  | 0 => x
  | n + 1 => interpStep target (interpIter target x n)

end Frontend

/-- A concrete server player used to evaluate the backend entity at specific
level/experience values. -/
def mkBackendPlayer (level exp : ℚ) : Backend.Player :=
  { playerId := "p1", position := ⟨0, 0⟩, level := level, exp := exp,
    health := 100, socketId := "s1", direction := "down", action := "idle" }

/-- A concrete server player whose pending input has latched an attack. -/
def mkAttackPlayer : Backend.Player :=
  { mkBackendPlayer 1 0 with currentInput := { action := some "attack" } }

/-- A concrete snapshot entry for the local player. -/
def samplePlayerData : Frontend.PlayerData :=
  { playerId := "me", position := ⟨100, 200⟩, level := 1, exp := 0,
    direction := "right", action := "idle" }

/-- The local player's snapshot entry one tick later: moved and walking. -/
def sampleMsgPlayer : Frontend.PlayerData :=
  { samplePlayerData with position := ⟨150, 250⟩, action := "walk" }

/-- A concrete snapshot entry for an enemy. -/
def sampleEnemyData : Frontend.EnemyData := { position := ⟨50, 60⟩, health := 10 }

/-- The enemy's snapshot entry one tick later: moved and damaged. -/
def sampleMsgEnemy : Frontend.EnemyData := { position := ⟨70, 80⟩, health := 5 }

/-- A concrete client scene tracking two players and two enemies. -/
def sampleScene : Frontend.MainScene :=
  { playerId := "me"
    players := [("me", Frontend.Player.create samplePlayerData),
                ("gone", Frontend.Player.create { samplePlayerData with playerId := "gone" })]
    enemies := [("e1", Frontend.createEnemy sampleEnemyData),
                ("e2", Frontend.createEnemy sampleEnemyData)] }

/-- A concrete snapshot in which player "gone" and enemy "e2" are missing. -/
def sampleMsg : Frontend.GameStateMsg :=
  { players := [("me", sampleMsgPlayer)], enemies := [("e1", sampleMsgEnemy)] }

/-- A concrete client player in the middle of an attack animation, with the
completion handler pending and movement keys held. -/
def sampleAttackingPlayer : Frontend.Player :=
  { Frontend.Player.create samplePlayerData with
      isAttacking := true, attackCallback := true, isMoving := true,
      currentDirection := "up" }

theorem append_ne_empty_left (s t : String) (h : s.length ≠ 0) : s ++ t ≠ "" := by
  intro he
  have hl := congrArg String.length he
  rw [String.length_append, String.length_empty] at hl
  omega

theorem getVal_append {α : Type} (l m : List (String × α)) (k : String) :
    getVal (l ++ m) k = if (getVal l k).isSome then getVal l k else getVal m k := by
  induction l with
  | nil => simp [getVal]
  | cons e rest ih =>
    by_cases h : e.1 = k <;> simp [getVal, h, ih]

theorem getVal_updateValue {α : Type} (l : List (String × α)) (j k : String)
    (g : α → α) :
    getVal (updateValue l j g) k
      = if j = k then (getVal l k).map g else getVal l k := by
  induction l with
  | nil => simp [getVal, updateValue]
  | cons e rest ih =>
    show getVal ((if e.1 = j then (e.1, g e.2) else e) :: updateValue rest j g) k
        = if j = k then (getVal (e :: rest) k).map g else getVal (e :: rest) k
    by_cases h1 : e.1 = j
    · by_cases h2 : j = k
      · have h3 : e.1 = k := h1.trans h2
        simp [getVal, h1, h2, h3, ih]
      · have h3 : ¬e.1 = k := fun h => h2 (h1.symm.trans h)
        simp [getVal, h1, h2, h3, ih]
    · by_cases h2 : e.1 = k
      · have h3 : ¬j = k := fun h => h1 (h2.trans h.symm)
        have h4 : ¬k = j := fun h => h3 h.symm
        simp [getVal, h1, h2, h3, h4, ih]
      · simp [getVal, h1, h2, ih]

theorem getVal_some_split {α : Type} (l : List (String × α)) (k : String) (v : α)
    (h : getVal l k = some v) :
    ∃ l₁ l₂, l = l₁ ++ (k, v) :: l₂ ∧ ∀ e ∈ l₁, e.1 ≠ k := by
  induction l with
  | nil => simp [getVal] at h
  | cons e rest ih =>
    by_cases he : e.1 = k
    · obtain ⟨a, b⟩ := e
      have ha : a = k := he
      subst ha
      have hb : b = v := by simpa [getVal] using h
      subst hb
      exact ⟨[], rest, rfl, by simp⟩
    · obtain ⟨l₁, l₂, hl, hne⟩ := ih (by simpa [getVal, he] using h)
      refine ⟨e :: l₁, l₂, by rw [List.cons_append, hl], ?_⟩
      intro x hx
      rcases List.mem_cons.mp hx with hx | hx
      · rw [hx]; exact he
      · exact hne x hx

theorem nodup_keys_no_right_dup {α : Type} (l₁ l₂ : List (String × α)) (k : String)
    (v : α) (h : ((l₁ ++ (k, v) :: l₂).map Prod.fst).Nodup) :
    ∀ e ∈ l₂, e.1 ≠ k := by
  intro e he
  rw [List.map_append, List.map_cons] at h
  have h2 := (List.nodup_append.mp h).2.1
  have h3 := (List.nodup_cons.mp h2).1
  intro hk
  have hmem : e.1 ∈ l₂.map Prod.fst := List.mem_map_of_mem Prod.fst he
  rw [hk] at hmem
  exact h3 hmem

theorem syncEntry_getVal_ne {α δ : Type} (upd : String → δ → α → α)
    (create : δ → α) (cur : List (String × α)) (e : String × δ) (k : String)
    (h : e.1 ≠ k) :
    getVal (syncEntry upd create cur e) k = getVal cur k := by
  unfold syncEntry
  by_cases hh : hasKey cur e.1 = true
  · simp [hh, getVal_updateValue, h]
  · rw [if_neg hh, getVal_append]
    cases hv : getVal cur k with
    | none => simp [hv, getVal, h]
    | some v => simp [hv]

theorem syncEntry_getVal_eq {α δ : Type} (upd : String → δ → α → α)
    (create : δ → α) (cur : List (String × α)) (k : String) (d : δ) (v : α)
    (h : getVal cur k = some v) :
    getVal (syncEntry upd create cur (k, d)) k = some (upd k d v) := by
  have hh : hasKey cur k = true := by simp [hasKey, h]
  unfold syncEntry
  simp [hh, getVal_updateValue, h]

theorem syncAll_getVal_not_mem {α δ : Type} (upd : String → δ → α → α)
    (create : δ → α) (es : List (String × δ)) (cur : List (String × α))
    (k : String) (h : ∀ e ∈ es, e.1 ≠ k) :
    getVal (syncAll upd create es cur) k = getVal cur k := by
  induction es generalizing cur with
  | nil => rfl
  | cons e rest ih =>
    show getVal (syncAll upd create rest (syncEntry upd create cur e)) k
        = getVal cur k
    rw [ih _ fun x hx => h x (List.mem_cons_of_mem _ hx),
      syncEntry_getVal_ne _ _ _ _ _ (h e (List.mem_cons_self _ _))]

theorem syncAll_getVal_found {α δ : Type} (upd : String → δ → α → α)
    (create : δ → α) (es₁ es₂ : List (String × δ)) (k : String) (d : δ)
    (cur : List (String × α)) (v : α)
    (h1 : ∀ e ∈ es₁, e.1 ≠ k) (h2 : ∀ e ∈ es₂, e.1 ≠ k)
    (hv : getVal cur k = some v) :
    getVal (syncAll upd create (es₁ ++ (k, d) :: es₂) cur) k = some (upd k d v) := by
  unfold syncAll
  rw [List.foldl_append, List.foldl_cons]
  have hmid : getVal (List.foldl (syncEntry upd create) cur es₁) k = some v :=
    (syncAll_getVal_not_mem upd create es₁ cur k h1).trans hv
  show getVal (syncAll upd create es₂
      (syncEntry upd create (List.foldl (syncEntry upd create) cur es₁) (k, d))) k
      = some (upd k d v)
  rw [syncAll_getVal_not_mem _ _ _ _ _ h2,
    syncEntry_getVal_eq _ _ _ _ _ _ hmid]

theorem getVal_prune_mem {α δ : Type} (st : List (String × δ))
    (l : List (String × α)) (k : String) (h : hasKey st k = true) :
    getVal (prune st l) k = getVal l k := by
  induction l with
  | nil => rfl
  | cons e rest ih =>
    unfold prune at ih ⊢
    rw [List.filter_cons]
    by_cases he : e.1 = k
    · have h1 : hasKey st e.1 = true := by rw [he]; exact h
      simp [h1, h, getVal, he]
    · by_cases hk : hasKey st e.1 = true <;> simp [hk, getVal, he, ih]

theorem getVal_prune_not_mem {α δ : Type} (st : List (String × δ))
    (l : List (String × α)) (k : String) (h : hasKey st k = false) :
    getVal (prune st l) k = none := by
  induction l with
  | nil => rfl
  | cons e rest ih =>
    unfold prune at ih ⊢
    rw [List.filter_cons]
    by_cases he : e.1 = k
    · have h1 : hasKey st e.1 = false := by rw [he]; exact h
      simp [h1, ih]
    · by_cases hk : hasKey st e.1 = true <;> simp [hk, getVal, he, ih]

theorem hasKey_prune {α δ : Type} (st : List (String × δ))
    (l : List (String × α)) (k : String) (h : hasKey (prune st l) k = true) :
    hasKey st k = true := by
  by_contra hf
  have hnone := getVal_prune_not_mem st l k (Bool.not_eq_true _ ▸ hf)
  rw [hasKey, hnone] at h
  exact Bool.false_ne_true h

theorem updatePosition_spriteX (p : Frontend.Player) (pos : Position) :
    (p.updatePosition pos).spriteX = pos.x := rfl

theorem updatePosition_spriteY (p : Frontend.Player) (pos : Position) :
    (p.updatePosition pos).spriteY = pos.y := rfl

theorem updateDirection_spriteX (p : Frontend.Player) (d : String) :
    (p.updateDirection d).spriteX = p.spriteX := by
  by_cases h0 : d ≠ "" <;> by_cases h1 : d ≠ p.currentDirection <;>
    by_cases h2 : d = "left" <;>
    simp [Frontend.Player.updateDirection, h0, h1, h2] <;> (try (split <;> rfl))

theorem updateDirection_spriteY (p : Frontend.Player) (d : String) :
    (p.updateDirection d).spriteY = p.spriteY := by
  by_cases h0 : d ≠ "" <;> by_cases h1 : d ≠ p.currentDirection <;>
    by_cases h2 : d = "left" <;>
    simp [Frontend.Player.updateDirection, h0, h1, h2] <;> (try (split <;> rfl))

theorem updateAction_spriteX (p : Frontend.Player) (a : String) :
    (p.updateAction a).spriteX = p.spriteX := rfl

theorem updateAction_spriteY (p : Frontend.Player) (a : String) :
    (p.updateAction a).spriteY = p.spriteY := rfl

theorem playAnimationWith_spriteX (p : Frontend.Player) (a d : String) :
    (p.playAnimationWith a d).spriteX = p.spriteX := by
  have k1 : ("idle_" ++ d) ≠ "" := append_ne_empty_left _ _ (by decide)
  have k2 : ("walk_" ++ d) ≠ "" := append_ne_empty_left _ _ (by decide)
  have k3 : ("attack_" ++ d) ≠ "" := append_ne_empty_left _ _ (by decide)
  by_cases h0 : p.isAttacking <;> by_cases h1 : a = "idle" <;>
    by_cases h2 : a = "walk" <;> by_cases h3 : a = "attack" <;>
    by_cases h4 : a = "die" <;>
    simp [Frontend.Player.playAnimationWith, h0, h1, h2, h3, h4, k1, k2, k3]

theorem playAnimationWith_spriteY (p : Frontend.Player) (a d : String) :
    (p.playAnimationWith a d).spriteY = p.spriteY := by
  have k1 : ("idle_" ++ d) ≠ "" := append_ne_empty_left _ _ (by decide)
  have k2 : ("walk_" ++ d) ≠ "" := append_ne_empty_left _ _ (by decide)
  have k3 : ("attack_" ++ d) ≠ "" := append_ne_empty_left _ _ (by decide)
  by_cases h0 : p.isAttacking <;> by_cases h1 : a = "idle" <;>
    by_cases h2 : a = "walk" <;> by_cases h3 : a = "attack" <;>
    by_cases h4 : a = "die" <;>
    simp [Frontend.Player.playAnimationWith, h0, h1, h2, h3, h4, k1, k2, k3]

theorem updateExpBar_spriteX (p : Frontend.Player) (e l : ℚ) :
    (p.updateExpBar e l).spriteX = p.spriteX := rfl

theorem updateExpBar_spriteY (p : Frontend.Player) (e l : ℚ) :
    (p.updateExpBar e l).spriteY = p.spriteY := rfl

/-- The known-player branch of `updateGameState` puts the sprite exactly at
the authoritative snapshot position. -/
theorem updateServerPlayer_sprite (myId id : String) (sp : Frontend.PlayerData)
    (pl : Frontend.Player) :
    (Frontend.updateServerPlayer myId id sp pl).spriteX = sp.position.x ∧
    (Frontend.updateServerPlayer myId id sp pl).spriteY = sp.position.y := by
  unfold Frontend.updateServerPlayer Frontend.Player.playAnimation
  by_cases hid : id = myId <;>
    simp [hid, updateExpBar_spriteX, updateExpBar_spriteY, playAnimationWith_spriteX,
      playAnimationWith_spriteY, updateAction_spriteX, updateAction_spriteY,
      updateDirection_spriteX, updateDirection_spriteY, updatePosition_spriteX,
      updatePosition_spriteY]

/-- The known-enemy branch of `updateGameState` sets `targetPosition` to the
authoritative position and leaves the displayed sprite position alone. -/
theorem updateServerEnemy_fields (ed : Frontend.EnemyData) (en : Frontend.EnemyObj) :
    (Frontend.updateServerEnemy ed en).targetPosition = ed.position ∧
    (Frontend.updateServerEnemy ed en).spriteX = en.spriteX ∧
    (Frontend.updateServerEnemy ed en).spriteY = en.spriteY :=
  ⟨rfl, rfl, rfl⟩

/-- C1: the claim requires `gainExp` to loop while experience ≥ level×100, so
that from level=1, exp=0, `gainExp(250)` yields exp=50, level=3.  The source
uses a single `if`, so that call actually yields exp=150, level=2: only the
single-threshold example (level=1, exp=90, `gainExp(30)` → exp=20, level=2,
returns true) behaves as claimed. -/
theorem gainExp_single_threshold_only :
    (((mkBackendPlayer 1 90).gainExp 30).1.exp = 20 ∧
      ((mkBackendPlayer 1 90).gainExp 30).1.level = 2 ∧
      ((mkBackendPlayer 1 90).gainExp 30).2 = true) ∧
    ((mkBackendPlayer 1 0).gainExp 250).1.exp = 150 ∧
    ((mkBackendPlayer 1 0).gainExp 250).1.level = 2 ∧
    ¬(((mkBackendPlayer 1 0).gainExp 250).1.exp = 50 ∧
        ((mkBackendPlayer 1 0).gainExp 250).1.level = 3) := by
  norm_num [Backend.Player.gainExp, mkBackendPlayer]

/-- C2: once the pending record's action is `"attack"`, any later `setInput`
call — and in fact any sequence of later `setInput` calls — leaves the stored
record's action equal to `"attack"`, so the latched attack survives until the
tick consumes the record. -/
theorem attack_latch_preserved (p : Backend.Player) (input : InputRecord)
    (inputs : List InputRecord) (h : p.currentInput.action = some "attack") :
    (p.setInput input).currentInput.action = some "attack" ∧
    (inputs.foldl Backend.Player.setInput p).currentInput.action = some "attack" := by
  constructor
  · simp [Backend.Player.setInput, h]
  · induction inputs generalizing p with
    | nil => exact h
    | cons i rest ih =>
      exact ih (p.setInput i) (by simp [Backend.Player.setInput, h])

/-- Witness for C2: a player whose pending action is `"attack"`, followed by
a `{left := true}` input, still stores action `"attack"`. -/
theorem attack_latch_preserved_witness :
    mkAttackPlayer.currentInput.action = some "attack" ∧
    ((mkAttackPlayer.setInput { left := true }).currentInput.action = some "attack" ∧
      (([{ left := true }] : List InputRecord).foldl Backend.Player.setInput
          mkAttackPlayer).currentInput.action = some "attack") :=
  ⟨rfl, attack_latch_preserved mkAttackPlayer { left := true } [{ left := true }] rfl⟩

/-- C3: after `processInput`, whatever the starting position and pressed
flags, the position lies in the world rectangle [0,800] × [0,600]. -/
theorem processInput_position_clamped (tickRate : ℚ) (p : Backend.Player) :
    0 ≤ (p.processInput tickRate).position.x ∧
      (p.processInput tickRate).position.x ≤ 800 ∧
      0 ≤ (p.processInput tickRate).position.y ∧
      (p.processInput tickRate).position.y ≤ 600 := by
  refine ⟨le_max_left _ _, ?_, le_max_left _ _, ?_⟩ <;>
    exact max_le (by norm_num) (min_le_left _ _)

/-- C4: `processInput` resets the stored input to the empty record, so
afterwards `isAttacking` is false and a latched attack influenced exactly
this one tick. -/
theorem processInput_resets_input (tickRate : ℚ) (p : Backend.Player) :
    (p.processInput tickRate).currentInput = {} ∧
    (p.processInput tickRate).isAttacking = false :=
  ⟨rfl, rfl⟩

/-- C5: in one `processInput` call each pressed directional flag contributes
`speed / TICK_RATE` (= `speed × Δt`) additively along its axis — left
subtracts from x, right adds to x, up subtracts from y, down adds to y — with
no normalization of combined flags; the clamp is applied to the sum. -/
theorem processInput_integrates_flags (tickRate : ℚ) (p : Backend.Player) :
    (p.processInput tickRate).position.x =
      max 0 (min 800 (p.position.x
        + (if p.currentInput.right then p.speed / tickRate else 0)
        - (if p.currentInput.left then p.speed / tickRate else 0))) ∧
    (p.processInput tickRate).position.y =
      max 0 (min 600 (p.position.y
        + (if p.currentInput.down then p.speed / tickRate else 0)
        - (if p.currentInput.up then p.speed / tickRate else 0))) ∧
    p.speed / tickRate = p.speed * (1 / tickRate) := by
  have hx : (p.processInput tickRate).position.x =
      max 0 (min 800 (if p.currentInput.right then
          (if p.currentInput.left then p.position.x - p.speed / tickRate
            else p.position.x) + p.speed / tickRate
        else if p.currentInput.left then p.position.x - p.speed / tickRate
          else p.position.x)) := rfl
  have hy : (p.processInput tickRate).position.y =
      max 0 (min 600 (if p.currentInput.down then
          (if p.currentInput.up then p.position.y - p.speed / tickRate
            else p.position.y) + p.speed / tickRate
        else if p.currentInput.up then p.position.y - p.speed / tickRate
          else p.position.y)) := rfl
  refine ⟨?_, ?_, by rw [mul_one_div]⟩
  · rw [hx]
    cases hl : p.currentInput.left <;> cases hr : p.currentInput.right <;> simp
  · rw [hy]
    cases hu : p.currentInput.up <;> cases hd : p.currentInput.down <;> simp

/-- Closed form of the interpolation recurrence: after `n` frames the
remaining distance to the target is the initial one scaled by `(9/10)^n`. -/
theorem interpIter_closed (target x : ℚ) (n : ℕ) :
    target - Frontend.interpIter target x n = (9/10) ^ n * (target - x) := by
  induction n with
  | zero => simp [Frontend.interpIter]
  | succ n ih =>
    have hstep : target - Frontend.interpIter target x (n + 1)
        = (9/10) * (target - Frontend.interpIter target x n) := by
      show target - Frontend.interpStep target (Frontend.interpIter target x n)
          = (9/10) * (target - Frontend.interpIter target x n)
      unfold Frontend.interpStep Frontend.phaserLinear
      ring
    rw [hstep, ih, pow_succ]
    ring

/-- C6: under the per-frame update `x = x + 0.1 (target - x)` with a fixed
target, the remaining distance to the target never changes sign, is
non-increasing (no overshoot), and for every positive ε some frame count `N`
brings — and keeps — the displayed coordinate within ε of the target. -/
theorem interpolation_no_overshoot_and_converges (target x ε : ℚ) (hε : 0 < ε) :
    (∀ n, |target - Frontend.interpIter target x (n + 1)|
        ≤ |target - Frontend.interpIter target x n|) ∧
    (∀ n, 0 ≤ (target - Frontend.interpIter target x n) * (target - x)) ∧
    ∃ N, ∀ n, N ≤ n → |target - Frontend.interpIter target x n| < ε := by
  refine ⟨?_, ?_, ?_⟩
  · intro n
    rw [interpIter_closed, interpIter_closed, pow_succ,
      mul_comm ((9/10 : ℚ) ^ n) (9/10), mul_assoc, abs_mul]
    exact mul_le_of_le_one_left (abs_nonneg _) (by rw [abs_of_nonneg] <;> norm_num)
  · intro n
    rw [interpIter_closed, mul_assoc]
    exact mul_nonneg (pow_nonneg (by norm_num) n) (mul_self_nonneg _)
  · by_cases hd : target - x = 0
    · exact ⟨0, fun n _ => by
        rw [interpIter_closed, hd, mul_zero, abs_zero]; exact hε⟩
    · have hd' : 0 < |target - x| := abs_pos.mpr hd
      obtain ⟨N, hN⟩ := exists_pow_lt_of_lt_one (div_pos hε hd')
        (by norm_num : (9/10 : ℚ) < 1)
      refine ⟨N, fun n hn => ?_⟩
      rw [interpIter_closed, abs_mul, abs_of_nonneg (pow_nonneg (by norm_num) n)]
      calc (9/10 : ℚ) ^ n * |target - x|
          ≤ (9/10 : ℚ) ^ N * |target - x| :=
            mul_le_mul_of_nonneg_right
              (pow_le_pow_of_le_one (by norm_num) (by norm_num) hn) (abs_nonneg _)
        _ < ε / |target - x| * |target - x| := mul_lt_mul_of_pos_right hN hd'
        _ = ε := div_mul_cancel₀ ε (ne_of_gt hd')

/-- Witness for C6: from displayed coordinate 0 toward target 10 with ε = 1,
the interpolation never overshoots and eventually stays within 1. -/
theorem interpolation_no_overshoot_and_converges_witness :
    (0 : ℚ) < 1 ∧
    ((∀ n, |10 - Frontend.interpIter 10 0 (n + 1)|
        ≤ |10 - Frontend.interpIter 10 0 n|) ∧
      (∀ n, 0 ≤ (10 - Frontend.interpIter 10 0 n) * (10 - 0)) ∧
      ∃ N, ∀ n, N ≤ n → |10 - Frontend.interpIter 10 0 n| < 1) :=
  ⟨by norm_num, interpolation_no_overshoot_and_converges 10 0 1 (by norm_num)⟩

/-- C10: `processInput` leaves `playerId`, `level`, `exp`, `health`,
`socketId`, `isAlive` and `speed` unchanged, whatever the player state and
stored input record. -/
theorem processInput_frame_effect (tickRate : ℚ) (p : Backend.Player) :
    (p.processInput tickRate).playerId = p.playerId ∧
    (p.processInput tickRate).level = p.level ∧
    (p.processInput tickRate).exp = p.exp ∧
    (p.processInput tickRate).health = p.health ∧
    (p.processInput tickRate).socketId = p.socketId ∧
    (p.processInput tickRate).isAlive = p.isAlive ∧
    (p.processInput tickRate).speed = p.speed :=
  ⟨rfl, rfl, rfl, rfl, rfl, rfl, rfl⟩

/-- C7: after `updateGameState`, the tracked player ids form a subset of the
snapshot's player ids and likewise for enemies; every previously-tracked id
missing from the snapshot is deleted in that same call, with no grace
period. -/
theorem updateGameState_prunes_missing_ids (scene : Frontend.MainScene)
    (st : Frontend.GameStateMsg) (id : String) :
    (hasKey (scene.updateGameState st).players id = true →
      hasKey st.players id = true) ∧
    (hasKey (scene.updateGameState st).enemies id = true →
      hasKey st.enemies id = true) ∧
    (hasKey scene.players id = true → hasKey st.players id = false →
      hasKey (scene.updateGameState st).players id = false) ∧
    (hasKey scene.enemies id = true → hasKey st.enemies id = false →
      hasKey (scene.updateGameState st).enemies id = false) := by
  have hpl : (scene.updateGameState st).players
      = prune st.players (syncAll (Frontend.updateServerPlayer scene.playerId)
          Frontend.Player.create st.players scene.players) := rfl
  have hen : (scene.updateGameState st).enemies
      = prune st.enemies (syncAll (fun _ => Frontend.updateServerEnemy)
          Frontend.createEnemy st.enemies scene.enemies) := rfl
  refine ⟨?_, ?_, ?_, ?_⟩
  · rw [hpl]; exact hasKey_prune _ _ _
  · rw [hen]; exact hasKey_prune _ _ _
  · intro _ h2
    rw [hpl]
    unfold hasKey
    rw [getVal_prune_not_mem _ _ _ h2]
    rfl
  · intro _ h2
    rw [hen]
    unfold hasKey
    rw [getVal_prune_not_mem _ _ _ h2]
    rfl

/-- Witness for C7: in the sample scene, player "gone" and enemy "e2" are
tracked but absent from the sample snapshot, and both are gone from the
tracked maps right after `updateGameState`. -/
theorem updateGameState_prunes_missing_ids_witness :
    hasKey sampleScene.players "gone" = true ∧
    hasKey sampleMsg.players "gone" = false ∧
    hasKey (sampleScene.updateGameState sampleMsg).players "gone" = false ∧
    hasKey sampleScene.enemies "e2" = true ∧
    hasKey sampleMsg.enemies "e2" = false ∧
    hasKey (sampleScene.updateGameState sampleMsg).enemies "e2" = false :=
  ⟨rfl, rfl,
    (updateGameState_prunes_missing_ids sampleScene sampleMsg "gone").2.2.1 rfl rfl,
    rfl, rfl,
    (updateGameState_prunes_missing_ids sampleScene sampleMsg "e2").2.2.2 rfl rfl⟩

/-- C8: on a received snapshot, every already-tracked player (the local one
and remote ones alike) has its displayed sprite position assigned directly to
the authoritative snapshot position, while an already-tracked enemy only gets
the authoritative position stored as `targetPosition` and keeps its displayed
sprite position unchanged by `updateGameState`. -/
theorem updateGameState_players_direct_enemies_target
    (scene : Frontend.MainScene) (st : Frontend.GameStateMsg)
    (hp : (st.players.map Prod.fst).Nodup) (he : (st.enemies.map Prod.fst).Nodup)
    (id jd : String) (pl : Frontend.Player) (sp : Frontend.PlayerData)
    (en : Frontend.EnemyObj) (ed : Frontend.EnemyData)
    (h1 : getVal scene.players id = some pl)
    (h2 : getVal st.players id = some sp)
    (h3 : getVal scene.enemies jd = some en)
    (h4 : getVal st.enemies jd = some ed) :
    (∃ pl2, getVal (scene.updateGameState st).players id = some pl2 ∧
      pl2.spriteX = sp.position.x ∧ pl2.spriteY = sp.position.y) ∧
    (∃ en2, getVal (scene.updateGameState st).enemies jd = some en2 ∧
      en2.targetPosition = ed.position ∧
      en2.spriteX = en.spriteX ∧ en2.spriteY = en.spriteY) := by
  constructor
  · obtain ⟨l₁, l₂, hsplit, hl₁⟩ := getVal_some_split st.players id sp h2
    have hl₂ : ∀ e ∈ l₂, e.1 ≠ id :=
      nodup_keys_no_right_dup l₁ l₂ id sp (hsplit ▸ hp)
    have hsync : getVal (syncAll (Frontend.updateServerPlayer scene.playerId)
        Frontend.Player.create st.players scene.players) id
        = some (Frontend.updateServerPlayer scene.playerId id sp pl) := by
      rw [hsplit]
      exact syncAll_getVal_found _ _ l₁ l₂ id sp scene.players pl hl₁ hl₂ h1
    have hkey : hasKey st.players id = true := by simp [hasKey, h2]
    have hres : (scene.updateGameState st).players
        = prune st.players (syncAll (Frontend.updateServerPlayer scene.playerId)
            Frontend.Player.create st.players scene.players) := rfl
    refine ⟨Frontend.updateServerPlayer scene.playerId id sp pl, ?_,
      (updateServerPlayer_sprite _ _ _ _).1, (updateServerPlayer_sprite _ _ _ _).2⟩
    rw [hres, getVal_prune_mem _ _ _ hkey, hsync]
  · obtain ⟨l₁, l₂, hsplit, hl₁⟩ := getVal_some_split st.enemies jd ed h4
    have hl₂ : ∀ e ∈ l₂, e.1 ≠ jd :=
      nodup_keys_no_right_dup l₁ l₂ jd ed (hsplit ▸ he)
    have hsync : getVal (syncAll (fun _ => Frontend.updateServerEnemy)
        Frontend.createEnemy st.enemies scene.enemies) jd
        = some (Frontend.updateServerEnemy ed en) := by
      rw [hsplit]
      exact syncAll_getVal_found _ _ l₁ l₂ jd ed scene.enemies en hl₁ hl₂ h3
    have hkey : hasKey st.enemies jd = true := by simp [hasKey, h4]
    have hres : (scene.updateGameState st).enemies
        = prune st.enemies (syncAll (fun _ => Frontend.updateServerEnemy)
            Frontend.createEnemy st.enemies scene.enemies) := rfl
    refine ⟨Frontend.updateServerEnemy ed en, ?_,
      (updateServerEnemy_fields _ _).1, (updateServerEnemy_fields _ _).2.1,
      (updateServerEnemy_fields _ _).2.2⟩
    rw [hres, getVal_prune_mem _ _ _ hkey, hsync]

/-- Witness for C8: in the sample scene and snapshot, player "me" is moved
straight to (150, 250) while enemy "e1" keeps its displayed position (50, 60)
and gets target (70, 80). -/
theorem updateGameState_players_direct_enemies_target_witness :
    (∃ pl2, getVal (sampleScene.updateGameState sampleMsg).players "me" = some pl2 ∧
      pl2.spriteX = sampleMsgPlayer.position.x ∧
      pl2.spriteY = sampleMsgPlayer.position.y) ∧
    (∃ en2, getVal (sampleScene.updateGameState sampleMsg).enemies "e1" = some en2 ∧
      en2.targetPosition = sampleMsgEnemy.position ∧
      en2.spriteX = (Frontend.createEnemy sampleEnemyData).spriteX ∧
      en2.spriteY = (Frontend.createEnemy sampleEnemyData).spriteY) :=
  updateGameState_players_direct_enemies_target sampleScene sampleMsg
    (by decide) (by decide) "me" "e1"
    (Frontend.Player.create samplePlayerData) sampleMsgPlayer
    (Frontend.createEnemy sampleEnemyData) sampleMsgEnemy
    rfl rfl rfl rfl

/-- C9: while the client player's `isAttacking` flag is set, `playAnimation`
is a no-op whatever action and direction arrive; once the attack animation's
completion handler fires it clears the flag and plays `walk_<dir>` when the
locally tracked `isMoving` is true and `idle_<dir>` otherwise. -/
theorem attack_animation_lockout (p : Frontend.Player) (action direction : String) :
    (p.isAttacking = true → p.playAnimationWith action direction = p) ∧
    (p.attackCallback = true →
      p.animationComplete.isAttacking = false ∧
      p.animationComplete.anim =
        (if p.isMoving then "walk_" ++ p.currentDirection
          else "idle_" ++ p.currentDirection)) := by
  constructor
  · intro h
    unfold Frontend.Player.playAnimationWith
    simp [h]
  · intro hcb
    have k1 : ("idle_" ++ p.currentDirection) ≠ "" :=
      append_ne_empty_left _ _ (by decide)
    have k2 : ("walk_" ++ p.currentDirection) ≠ "" :=
      append_ne_empty_left _ _ (by decide)
    unfold Frontend.Player.animationComplete Frontend.Player.playAnimationWith
    cases hm : p.isMoving <;> simp [hcb, hm, k1, k2]

/-- Witness for C9: the sample mid-attack player ignores an incoming idle
animation, and on animation completion resumes `walk_up` (it is moving). -/
theorem attack_animation_lockout_witness :
    sampleAttackingPlayer.playAnimationWith "idle" "down" = sampleAttackingPlayer ∧
    (sampleAttackingPlayer.animationComplete.isAttacking = false ∧
      sampleAttackingPlayer.animationComplete.anim =
        (if sampleAttackingPlayer.isMoving
          then "walk_" ++ sampleAttackingPlayer.currentDirection
          else "idle_" ++ sampleAttackingPlayer.currentDirection)) :=
  ⟨(attack_animation_lockout sampleAttackingPlayer "idle" "down").1 rfl,
    (attack_animation_lockout sampleAttackingPlayer "idle" "down").2 rfl⟩

end MowDemo
